import Mathlib

/-!
# t3: quote lookup handler and command-line parsing

A shallow embedding of `t3.go`:

* `parseArgs` (command-line switches and parameters);
* `lookupHandler` (the `/api/lookup/` handler with its per-symbol cache).

The handler is a pure function of the request, the two clock readings it makes,
the cache map and the behaviour of the library/network calls (`Env`).  Its
result records everything observable: the HTTP response, the log lines, the
URLs handed to the HTTP client, whether the handler panicked, and the cache map
afterwards.
-/

namespace T3

/-! ## Data model (t3.go lines 21-54) -/

/-- A Go `float64`, carried as its IEEE-754 bit pattern.  The program only copies
these values; it never computes with them. -/
structure Float64 where
  bits : Nat
deriving DecidableEq, Repr

/-- The provider record `MktsQuote`. -/
structure MktsQuote where
  Symbol : String
  Exchange : String
  Date : String
  Open : Float64
  High : Float64
  Low : Float64
  Close : Float64
  Volume : Float64
deriving DecidableEq, Repr

/-- The served record `Quote`. -/
structure Quote where
  Name : String
  Symbol : String
  Exchange : String
  Date : String
  Open : Float64
  High : Float64
  Low : Float64
  Close : Float64
  Volume : Float64
deriving DecidableEq, Repr

/-- An instant of `time.Time`, in nanoseconds on the process clock. -/
abbrev Time := Int

/-- The cache entry `CachedQuote`. -/
structure CachedQuote where
  lastMod : Time
  jsonQuote : String
deriving DecidableEq, Repr

/-- The global `_cachedQuote map[string]*CachedQuote`; `none` is an absent key
(or a nil pointer, which the handler treats the same way). -/
abbrev Cache := String → Option CachedQuote

/-- The map made by `init()`. -/
def emptyCache : Cache := fun _ => none

/-- Map assignment `m[k] = v`. -/
def mapSet {V : Type} (m : String → Option V) (k : String) (v : V) : String → Option V :=
  fun k' => if k' = k then some v else m k'

/-! ## Durations (package time) -/

/-- Smallest `time.Duration` (int64 nanoseconds): minus 2 to the 63. -/
def minDuration : Int := -9223372036854775808

/-- Largest `time.Duration`: 2 to the 63, minus 1. -/
def maxDuration : Int := 9223372036854775807

/-- The constant `time.Minute`, in nanoseconds. -/
def Minute : Int := 60 * 1000000000

/-- The method `Time.Sub`: the difference as an int64 duration, saturating at the
smallest and largest duration. -/
def timeSub (t u : Time) : Int :=
  let d : Int := t - u
  if d < minDuration then minDuration
  else if maxDuration < d then maxDuration
  else d

/-- The call `time.Since(t)` when the clock reads `now`. -/
def timeSince (now t : Time) : Int := timeSub now t

/-- Go's `/` on int64 durations: the quotient truncated toward zero. -/
def durationDiv (a b : Int) : Int := Int.tdiv a b

/-! ## Helper functions (t3.go lines 193-200) -/

/-- The helper `listContains`. -/
def listContains : List String → String → Bool
  | [], _ => false
  | s :: ss, v => if v = s then true else listContains ss v

/-- The test `strings.HasPrefix(s, p)`. -/
def hasPrefixOf (s p : String) : Bool := p.data.isPrefixOf s.data

/-- The slice `s[n:]` for a string whose first `n` bytes are ASCII. -/
def sliceFrom (s : String) (n : Nat) : String := String.mk (s.data.drop n)

/-! ## parseArgs (t3.go lines 231-273) -/

/-- The local variables of `parseArgs`. -/
structure ArgState where
  switches : String → Option String
  parms : List String
  fNoMoreSwitches : Bool
  curKey : String

/-- The local `standaloneSwitches`. -/
def standaloneSwitches : List String := []

/-- The local `definitionSwitches`. -/
def definitionSwitches : List String := ["i"]

/-- The values of the locals before the loop. -/
def ArgState.init : ArgState :=
  { switches := fun _ => none, parms := [], fNoMoreSwitches := false, curKey := "" }

/-- The inner loop `for _, ch := range arg[1:]` over the characters of a `-abc` argument. -/
def setStandalone (switches : String → Option String) : List Char → String → Option String
  | [] => switches
  | ch :: rest =>
    let sch := String.singleton ch
    if listContains standaloneSwitches sch then setStandalone (mapSet switches sch "y") rest
    else setStandalone switches rest

/-- One iteration of the loop `for _, arg := range args`. -/
def parseArgsStep (st : ArgState) (arg : String) : ArgState :=
  if st.fNoMoreSwitches then
    { st with parms := st.parms ++ [arg] }
  else if arg = "--" then
    { st with fNoMoreSwitches := true }
  else if hasPrefixOf arg "--" then
    { st with switches := mapSet st.switches (sliceFrom arg 2) "y", curKey := "" }
  else if hasPrefixOf arg "-" then
    if listContains definitionSwitches (sliceFrom arg 1) then
      { st with curKey := sliceFrom arg 1 }
    else
      { st with switches := setStandalone st.switches (sliceFrom arg 1).data }
  else if st.curKey ≠ "" then
    { st with switches := mapSet st.switches st.curKey arg, curKey := "" }
  else
    { st with parms := st.parms ++ [arg] }

/-- The function `parseArgs`: the switches map and the parameter list. -/
def parseArgs (args : List String) : (String → Option String) × List String :=
  let st := args.foldl parseArgsStep ArgState.init
  (st.switches, st.parms)

/-! ## fmt.Fprintf with a format and no operands (package fmt, `doPrintf`)

`makeFprintf(w)` returns `P` with `P(format, a...) = fmt.Fprintf(w, format, a...)`;
the handler only ever calls `P(s)` with no operands, so this is `doPrintf` with an
empty operand list.  Formats are read as character lists. -/

/-- The flag characters accepted after `%`. -/
def isFlag (c : Char) : Bool := c = '#' || c = '0' || c = '+' || c = '-' || c = ' '

/-- The flag loop of `doPrintf`: with no operands it stops at the first character
that is not a flag. -/
def skipFlags : List Char → List Char
  | [] => []
  | c :: cs => if isFlag c then skipFlags cs else c :: cs

/-- The overflow guard `tooLarge` of package fmt. -/
def tooLarge (x : Nat) : Bool := decide (1000000 < x)

/-- The loop of `parsenum` over the window still to be read: the number, whether a
digit was read, and the unread rest of the window (empty after an overflow, where
`parsenum` answers with the end of the window). -/
def parsenumLoop : Nat → Bool → List Char → Nat × Bool × List Char
  | num, isnum, [] => (num, isnum, [])
  | num, isnum, c :: cs =>
    if '0' ≤ c ∧ c ≤ '9' then
      if tooLarge num then (0, false, [])
      else parsenumLoop (num * 10 + (c.toNat - '0'.toNat)) true cs
    else (num, isnum, c :: cs)

/-- The function `parsenum` on a window of the format. -/
def parsenum (w : List Char) : Nat × Bool × List Char := parsenumLoop 0 false w

/-- The function `parseArgNumber` on a format suffix that starts with `[`: how many
characters the `[n]` takes and whether it is well formed. -/
def parseArgNumber (f : List Char) : Nat × Bool :=
  if f.length < 3 then (1, false)
  else
    let inner := f.drop 1
    let j := inner.indexOf ']'
    if j < inner.length then
      match parsenum (inner.take j) with
      | (_, ok, unread) => if ok && unread.isEmpty then (j + 2, true) else (j + 2, false)
    else (1, false)

/-- The method `argNumber` with no operands: the rest of the format, whether an
index was found, and the new value of `goodArgNum` (an index can never be in range). -/
def argNumber (rest : List Char) (good : Bool) : List Char × Bool × Bool :=
  match rest with
  | '[' :: _ =>
    match parseArgNumber rest with
    | (wid, ok) => (rest.drop wid, ok, false)
  | _ => (rest, false, good)

/-- The width step: text written, rest of the format, `afterIndex`, `goodArgNum`. -/
def widthStep (rest : List Char) (afterIndex good : Bool) :
    List Char × List Char × Bool × Bool :=
  match rest with
  | '*' :: cs => ("%!(BADWIDTH)".data, cs, false, good)
  | _ =>
    match parsenum rest with
    | (_, widPresent, unread) => ([], unread, afterIndex, good && !(afterIndex && widPresent))

/-- The precision step: text written, rest of the format, `afterIndex`, `goodArgNum`. -/
def precStep (rest : List Char) (afterIndex good : Bool) :
    List Char × List Char × Bool × Bool :=
  match rest with
  | '.' :: cs =>
    match argNumber cs (good && !afterIndex) with
    | ('*' :: cs2, _, g) => ("%!(BADPREC)".data, cs2, false, g)
    | (r, aft, g) =>
      match parsenum r with
      | (_, _, unread) => ([], unread, aft, g)
  | _ => ([], rest, afterIndex, good)

/-- The processing of one verb, started right after a `%`: the text written and the
rest of the format. -/
def directive (rest : List Char) : List Char × List Char :=
  match argNumber (skipFlags rest) true with
  | (r2, after1, good1) =>
    match widthStep r2 after1 good1 with
    | (out1, r3, after2, good2) =>
      match precStep r3 after2 good2 with
      | (out2, r4, after3, good3) =>
        match (if after3 then (r4, after3, good3) else argNumber r4 good3) with
        | ([], _, _) => (out1 ++ out2 ++ "%!(NOVERB)".data, [])
        | (verb :: cs, _, good4) =>
          if verb = '%' then (out1 ++ out2 ++ ['%'], cs)
          else if !good4 then (out1 ++ out2 ++ ("%!".data ++ verb :: "(BADINDEX)".data), cs)
          else (out1 ++ out2 ++ ("%!".data ++ verb :: "(MISSING)".data), cs)

/-- The format loop of `doPrintf`; the counter is the number of characters the last
verb still has to skip. -/
def doPrintfLoop : List Char → Nat → List Char
  | [], _ => []
  | _ :: cs, k + 1 => doPrintfLoop cs k
  | c :: cs, 0 =>
    if c = '%' then
      match directive cs with
      | (out, unread) => out ++ doPrintfLoop cs (cs.length - unread.length)
    else c :: doPrintfLoop cs 0

/-- What `P(format)` writes to the response: `fmt.Fprintf(w, format)`. -/
def Fprintf (format : String) : String := String.mk (doPrintfLoop format.data 0)

/-! ## The world of one request -/

/-- Outcome of `c.Do(req)` followed by `ioutil.ReadAll(res.Body)`. -/
inductive HttpResult where
  | doError : HttpResult
  | readError : HttpResult
  | body : List UInt8 → HttpResult
deriving DecidableEq, Repr

/-- The library and network calls the handler makes. -/
structure Env where
  /-- The rune mapping `unicode.ToUpper`. -/
  unicodeToUpper : Char → Char
  /-- Whether `http.NewRequest` with method GET accepts the URL (returns a nil error). -/
  newRequestOk : String → Bool
  /-- What the provider answers to a GET of the URL. -/
  clientDo : String → HttpResult
  /-- The call `json.Unmarshal(bs, &mq)`: the decoded record, or `none` on an error. -/
  jsonUnmarshal : List UInt8 → Option MktsQuote
  /-- The call `json.MarshalIndent(q, "", "\t")`: the text, or `none` on an error. -/
  jsonMarshalIndent : Quote → Option String

/-- An HTTP request, reduced to its parsed form values `r.Form`. -/
structure Request where
  Form : String → List String

/-- The method `r.FormValue(key)`: the first value of the key, or the empty string. -/
def FormValue (r : Request) (key : String) : String :=
  match r.Form key with
  | [] => ""
  | v :: _ => v

/-- ASCII upper-casing of one character, as in the ASCII path of `strings.ToUpper`. -/
def asciiUpper (c : Char) : Char :=
  if 'a' ≤ c ∧ c ≤ 'z' then Char.ofNat (c.toNat - ('a'.toNat - 'A'.toNat)) else c

/-- The function `strings.ToUpper`: ASCII-only strings are mapped letter by letter,
every other string goes through `strings.Map(unicode.ToUpper, s)`. -/
def ToUpper (env : Env) (s : String) : String :=
  if s.data.all (fun c => decide (c.toNat < 128)) then String.mk (s.data.map asciiUpper)
  else String.mk (s.data.map env.unicodeToUpper)

/-- Everything observable of one run of the handler. -/
structure Result where
  /-- Status line sent; `none` when the handler panicked before writing anything. -/
  status : Option Nat
  /-- The `Content-Type` entry of `w.Header()` when the handler stops. -/
  contentType : Option String
  /-- Bytes written to the response body. -/
  body : String
  /-- Whether the handler stopped in `panic(err)`. -/
  panicked : Bool
  /-- Lines passed to `log.Printf`. -/
  log : List String
  /-- Keys read from `_cachedQuote`. -/
  reads : List String
  /-- URLs handed to `c.Do`. -/
  fetches : List String
  /-- The `Quote` that was encoded and written, if any. -/
  served : Option Quote
  /-- The map `_cachedQuote` afterwards. -/
  cache : Cache

/-! ## lookupHandler (t3.go lines 275-342) -/

/-- The local `mktsKey`. -/
def mktsKey : String := "875d5614925e6d98037cbc8592b7bdc2"

/-- The local `sreq`: the result of the `fmt.Sprintf` at line 300. -/
def requestURL (sym : String) : String :=
  "http://api.marketstack.com/v1/tickers/" ++ sym ++ "/eod/latest?access_key=" ++ mktsKey

/-- Lines 323-332: the `Quote` built from the decoded `MktsQuote`. -/
def buildQuote (mq : MktsQuote) : Quote :=
  { Name := mq.Symbol
    Symbol := mq.Symbol
    Exchange := mq.Exchange
    Date := mq.Date
    Open := mq.Open
    High := mq.High
    Low := mq.Low
    Close := mq.Close
    Volume := mq.Volume }

/-- The state in which a `panic(err)` after line 297 leaves the request: nothing was
written and the cache map was not assigned. -/
def panicResult (sym : String) (fetches : List String) (cache : Cache) : Result :=
  { status := none
    contentType := some "application/json"
    body := ""
    panicked := true
    log := ["*** Requesting new quote ***\n"]
    reads := [sym]
    fetches := fetches
    served := none
    cache := cache }

/-- Lines 297-340: request a new quote for `sym`, write it and store it. -/
def requestNewQuote (env : Env) (sym : String) (storeTime : Time) (cache : Cache) : Result :=
  let sreq := requestURL sym
  if env.newRequestOk sreq then
    match env.clientDo sreq with
    | HttpResult.doError => panicResult sym [sreq] cache
    | HttpResult.readError => panicResult sym [sreq] cache
    | HttpResult.body bs =>
      match env.jsonUnmarshal bs with
      | none => panicResult sym [sreq] cache
      | some mq =>
        let q := buildQuote mq
        match env.jsonMarshalIndent q with
        | none => panicResult sym [sreq] cache
        | some js =>
          { status := some 200
            contentType := some "application/json"
            body := Fprintf js
            panicked := false
            log := ["*** Requesting new quote ***\n"]
            reads := [sym]
            fetches := [sreq]
            served := some q
            cache := mapSet cache q.Symbol { lastMod := storeTime, jsonQuote := js } }
  else panicResult sym [] cache

/-- Lines 290-293: answer with the cached quote. -/
def serveCached (sym : String) (cq : CachedQuote) (cache : Cache) : Result :=
  { status := some 200
    contentType := some "application/json"
    body := Fprintf cq.jsonQuote
    panicked := false
    log := ["(Returning cached quote)\n"]
    reads := [sym]
    fetches := []
    served := none
    cache := cache }

/-- Lines 278-281: the answer of `http.Error(w, "sym required", 401)`, which sets a
plain-text content type, sends the status and writes the message with `fmt.Fprintln`. -/
def symRequired (cache : Cache) : Result :=
  { status := some 401
    contentType := some "text/plain; charset=utf-8"
    body := "sym required\n"
    panicked := false
    log := []
    reads := []
    fetches := []
    served := none
    cache := cache }

/-- The handler returned by `lookupHandler(db)`, run on request `r` with cache map
`cache`; `now` is the clock reading of `time.Since` (line 288) and `storeTime` the
reading of `time.Now()` (line 340).  The handler never uses `db`. -/
def lookupHandler (env : Env) (r : Request) (now storeTime : Time) (cache : Cache) : Result :=
  let sym := ToUpper env (FormValue r "sym")
  if sym = "" then symRequired cache
  else
    match cache sym with
    | some cq =>
      let elapsedMins := durationDiv (timeSince now cq.lastMod) Minute
      if elapsedMins < 1 then serveCached sym cq cache
      else requestNewQuote env sym storeTime cache
    | none => requestNewQuote env sym storeTime cache

/-! ## Sample requests and environments used to instantiate the theorems -/

/-- The bytes of an ASCII text. -/
def asciiBytes (s : String) : List UInt8 := s.data.map (fun c => UInt8.ofNat c.toNat)

/-- A request `GET /api/lookup/?sym=<value>`. -/
def lookupRequest (value : String) : Request :=
  { Form := fun key => if key = "sym" then [value] else [] }

/-- A request `GET /api/lookup/` without any parameter. -/
def bareRequest : Request := { Form := fun _ => [] }

/-- The provider body of the example in the specification. -/
def sbuxBody : List UInt8 :=
  asciiBytes ("\x7b\"symbol\":\"SBUX\",\"exchange\":\"XNAS\",\"date\":\"2024-01-02\"," ++
    "\"open\":84.5,\"high\":85.0,\"low\":84.0,\"close\":84.8,\"volume\":1000000\x7d")

/-- The record `json.Unmarshal` decodes from `sbuxBody`. -/
def sbuxMkts : MktsQuote :=
  { Symbol := "SBUX"
    Exchange := "XNAS"
    Date := "2024-01-02"
    Open := { bits := 0x4055200000000000 }
    High := { bits := 0x4055400000000000 }
    Low := { bits := 0x4055000000000000 }
    Close := { bits := 0x4055333333333333 }
    Volume := { bits := 0x412E848000000000 } }

/-- The text `json.MarshalIndent` gives for the quote built from `sbuxMkts`. -/
def sbuxJSON : String :=
  "\x7b\n\t\"name\": \"SBUX\",\n\t\"symbol\": \"SBUX\",\n\t\"exchange\": \"XNAS\"," ++
  "\n\t\"date\": \"2024-01-02\",\n\t\"open\": 84.5,\n\t\"high\": 85,\n\t\"low\": 84," ++
  "\n\t\"close\": 84.8,\n\t\"volume\": 1000000\n\x7d"

/-- A provider body that is a JSON object without any quote member, as the provider
sends for a symbol it does not know. -/
def errorBody : List UInt8 :=
  asciiBytes "\x7b\"error\":\x7b\"code\":\"not_found\"\x7d\x7d"

/-- The record `json.Unmarshal` leaves for `errorBody`: every field keeps its zero value. -/
def zeroMkts : MktsQuote :=
  { Symbol := ""
    Exchange := ""
    Date := ""
    Open := { bits := 0 }
    High := { bits := 0 }
    Low := { bits := 0 }
    Close := { bits := 0 }
    Volume := { bits := 0 } }

/-- The text `json.MarshalIndent` gives for the quote built from `zeroMkts`. -/
def zeroJSON : String :=
  "\x7b\n\t\"name\": \"\",\n\t\"symbol\": \"\",\n\t\"exchange\": \"\",\n\t\"date\": \"\"," ++
  "\n\t\"open\": 0,\n\t\"high\": 0,\n\t\"low\": 0,\n\t\"close\": 0,\n\t\"volume\": 0\n\x7d"

/-- A provider that knows SBUX and answers every other symbol with `errorBody`.  The
rune mapping is only ever applied to ASCII here, where it is `asciiUpper`. -/
def sampleEnv : Env :=
  { unicodeToUpper := asciiUpper
    newRequestOk := fun _ => true
    clientDo := fun url =>
      if url = requestURL "SBUX" then HttpResult.body sbuxBody else HttpResult.body errorBody
    jsonUnmarshal := fun bs =>
      if bs = sbuxBody then some sbuxMkts else if bs = errorBody then some zeroMkts else none
    jsonMarshalIndent := fun q =>
      if q = buildQuote sbuxMkts then some sbuxJSON
      else if q = buildQuote zeroMkts then some zeroJSON else none }

/-- A provider that cannot be reached. -/
def downEnv : Env :=
  { unicodeToUpper := asciiUpper
    newRequestOk := fun _ => true
    clientDo := fun _ => HttpResult.doError
    jsonUnmarshal := fun _ => none
    jsonMarshalIndent := fun _ => none }

/-- A provider that answers the former ticker FB with the record of META. -/
def aliasEnv : Env :=
  { unicodeToUpper := asciiUpper
    newRequestOk := fun _ => true
    clientDo := fun _ => HttpResult.body
      (asciiBytes "\x7b\"symbol\":\"META\",\"exchange\":\"XNAS\",\"date\":\"2024-01-02\"\x7d")
    jsonUnmarshal := fun _ => some { zeroMkts with
      Symbol := "META", Exchange := "XNAS", Date := "2024-01-02" }
    jsonMarshalIndent := fun q =>
      some ("\x7b\n\t\"name\": \"" ++ q.Name ++ "\",\n\t\"symbol\": \"" ++ q.Symbol ++
        "\",\n\t\"exchange\": \"" ++ q.Exchange ++ "\",\n\t\"date\": \"" ++ q.Date ++
        "\",\n\t\"open\": 0,\n\t\"high\": 0,\n\t\"low\": 0,\n\t\"close\": 0,\n\t\"volume\": 0\n\x7d") }

/-- The text `json.MarshalIndent` gives for an SBUX quote whose exchange is `X%%Y`. -/
def percentJSON : String :=
  "\x7b\n\t\"name\": \"SBUX\",\n\t\"symbol\": \"SBUX\",\n\t\"exchange\": \"X%%Y\"," ++
  "\n\t\"date\": \"2024-01-02\",\n\t\"open\": 84.5,\n\t\"high\": 85,\n\t\"low\": 84," ++
  "\n\t\"close\": 84.8,\n\t\"volume\": 1000000\n\x7d"

/-- The text `percentJSON` with the exchange `X%Y`. -/
def percentWritten : String :=
  "\x7b\n\t\"name\": \"SBUX\",\n\t\"symbol\": \"SBUX\",\n\t\"exchange\": \"X%Y\"," ++
  "\n\t\"date\": \"2024-01-02\",\n\t\"open\": 84.5,\n\t\"high\": 85,\n\t\"low\": 84," ++
  "\n\t\"close\": 84.8,\n\t\"volume\": 1000000\n\x7d"

/-! ## Supporting lemmas -/

/-- Upper-casing keeps the empty string empty and every other string non-empty. -/
theorem ToUpper_eq_empty_iff (env : Env) (s : String) : ToUpper env s = "" ↔ s = "" := by
  unfold ToUpper
  split <;> simp [String.ext_iff]

/-- The test of line 289 is the comparison with one minute, for every duration. -/
theorem durationDiv_lt_one_iff (d : Int) : durationDiv d Minute < 1 ↔ d < Minute := by
  unfold durationDiv Minute
  rcases le_or_lt 0 d with h | h
  · rw [Int.tdiv_eq_ediv h (by norm_num)]; omega
  · have h1 : Int.tdiv d (60 * 1000000000) ≤ 0 := by
      have h2 : Int.tdiv (-d) (60 * 1000000000) ≥ 0 := Int.tdiv_nonneg (by omega) (by norm_num)
      rw [Int.neg_tdiv] at h2
      omega
    constructor <;> intro _ <;> omega

/-- Saturation does not change the comparison with one minute. -/
theorem timeSub_lt_Minute_iff (now t : Int) : timeSub now t < Minute ↔ now - t < Minute := by
  unfold timeSub minDuration maxDuration Minute
  simp only
  split_ifs <;> constructor <;> intro _ <;> omega

/-- The handler on a request without a usable `sym`. -/
theorem lookupHandler_of_empty (env : Env) (r : Request) (now storeTime : Time) (cache : Cache)
    (h : FormValue r "sym" = "") :
    lookupHandler env r now storeTime cache = symRequired cache := by
  have h1 : ToUpper env (FormValue r "sym") = "" := (ToUpper_eq_empty_iff env _).2 h
  simp [lookupHandler, h1]

/-- The handler on a fresh cache entry. -/
theorem lookupHandler_of_fresh (env : Env) (r : Request) (now storeTime : Time) (cache : Cache)
    (cq : CachedQuote) (h : FormValue r "sym" ≠ "")
    (hc : cache (ToUpper env (FormValue r "sym")) = some cq)
    (hf : (now : Int) - cq.lastMod < Minute) :
    lookupHandler env r now storeTime cache
      = serveCached (ToUpper env (FormValue r "sym")) cq cache := by
  have h1 : ToUpper env (FormValue r "sym") ≠ "" := fun e => h ((ToUpper_eq_empty_iff env _).1 e)
  have h2 : durationDiv (timeSince now cq.lastMod) Minute < 1 :=
    (durationDiv_lt_one_iff _).2 ((timeSub_lt_Minute_iff now cq.lastMod).2 hf)
  simp [lookupHandler, h1, hc, h2]

/-- The handler when the cache has no fresh entry for the symbol. -/
theorem lookupHandler_of_not_fresh (env : Env) (r : Request) (now storeTime : Time)
    (cache : Cache) (h : FormValue r "sym" ≠ "")
    (hc : ∀ cq, cache (ToUpper env (FormValue r "sym")) = some cq →
      ¬ (now : Int) - cq.lastMod < Minute) :
    lookupHandler env r now storeTime cache
      = requestNewQuote env (ToUpper env (FormValue r "sym")) storeTime cache := by
  have h1 : ToUpper env (FormValue r "sym") ≠ "" := fun e => h ((ToUpper_eq_empty_iff env _).1 e)
  cases hq : cache (ToUpper env (FormValue r "sym")) with
  | none => simp [lookupHandler, h1, hq]
  | some cq =>
    have h2 : ¬ durationDiv (timeSince now cq.lastMod) Minute < 1 := fun e =>
      hc cq hq ((timeSub_lt_Minute_iff now cq.lastMod).1 ((durationDiv_lt_one_iff _).1 e))
    simp [lookupHandler, h1, hq, h2]

/-- The fetch path when request construction, transport, read and decode all succeed. -/
theorem requestNewQuote_of_decoded (env : Env) (sym : String) (storeTime : Time) (cache : Cache)
    (bs : List UInt8) (mq : MktsQuote) (h1 : env.newRequestOk (requestURL sym) = true)
    (h2 : env.clientDo (requestURL sym) = HttpResult.body bs)
    (h3 : env.jsonUnmarshal bs = some mq) :
    requestNewQuote env sym storeTime cache =
      match env.jsonMarshalIndent (buildQuote mq) with
      | none => panicResult sym [requestURL sym] cache
      | some js =>
        { status := some 200
          contentType := some "application/json"
          body := Fprintf js
          panicked := false
          log := ["*** Requesting new quote ***\n"]
          reads := [sym]
          fetches := [requestURL sym]
          served := some (buildQuote mq)
          cache := mapSet cache (buildQuote mq).Symbol { lastMod := storeTime, jsonQuote := js } } := by
  simp [requestNewQuote, h1, h2, h3]

/-- A format without a percent sign is written unchanged. -/
theorem doPrintfLoop_of_no_percent (cs : List Char) (h : '%' ∉ cs) : doPrintfLoop cs 0 = cs := by
  induction cs with
  | nil => rfl
  | cons c cs ih =>
    have hc : c ≠ '%' := fun e => h (by simp [e])
    have hcs : '%' ∉ cs := fun e => h (by simp [e])
    simp [doPrintfLoop, hc, ih hcs]

/-- The writer `P` copies a payload without a percent sign verbatim. -/
theorem Fprintf_of_no_percent (s : String) (h : '%' ∉ s.data) : Fprintf s = s := by
  simp [Fprintf, doPrintfLoop_of_no_percent s.data h]

/-- Every way through the fetch path logs the same line. -/
theorem requestNewQuote_log (env : Env) (sym : String) (storeTime : Time) (cache : Cache) :
    (requestNewQuote env sym storeTime cache).log = ["*** Requesting new quote ***\n"] := by
  unfold requestNewQuote
  simp only
  split
  · split
    · rfl
    · rfl
    · split
      · rfl
      · split <;> rfl
  · rfl

/-- A failed upstream step ends the fetch path in a panic that leaves the map alone. -/
theorem requestNewQuote_of_failure (env : Env) (sym : String) (storeTime : Time) (cache : Cache)
    (hfail : env.newRequestOk (requestURL sym) = false ∨
      env.clientDo (requestURL sym) = HttpResult.doError ∨
      env.clientDo (requestURL sym) = HttpResult.readError ∨
      ∃ bs, env.clientDo (requestURL sym) = HttpResult.body bs ∧ env.jsonUnmarshal bs = none) :
    ∃ fetches, requestNewQuote env sym storeTime cache = panicResult sym fetches cache := by
  unfold requestNewQuote
  simp only
  cases hreq : env.newRequestOk (requestURL sym) with
  | false => exact ⟨[], by simp⟩
  | true =>
    refine ⟨[requestURL sym], ?_⟩
    rcases hfail with h | h | h | ⟨bs, h, hd⟩
    · rw [hreq] at h; cases h
    · simp [h]
    · simp [h]
    · simp [h, hd]

/-! ## The claims -/

/-- C3 as stated fails: for a request without `sym` the body written by `http.Error`
is the message followed by a newline, not exactly the text `sym required`. -/
theorem C3_body_has_newline :
    FormValue bareRequest "sym" = "" ∧
    (lookupHandler sampleEnv bareRequest 0 0 emptyCache).status = some 401 ∧
    (lookupHandler sampleEnv bareRequest 0 0 emptyCache).body = "sym required\n" ∧
    (lookupHandler sampleEnv bareRequest 0 0 emptyCache).body ≠ "sym required" := by
  decide

/-- C3 (amended): a request whose `sym` is missing or empty is answered with status
401 and the body `sym required` followed by one newline, without any upstream fetch
and with the cache map unchanged; a request with a non-empty `sym` never gets
status 401 and does read the cache. -/
theorem C3_sym_required (env : Env) (r : Request) (now storeTime : Time) (cache : Cache) :
    (FormValue r "sym" = "" →
      (lookupHandler env r now storeTime cache).status = some 401 ∧
      (lookupHandler env r now storeTime cache).body = "sym required\n" ∧
      (lookupHandler env r now storeTime cache).fetches = [] ∧
      (lookupHandler env r now storeTime cache).panicked = false ∧
      (lookupHandler env r now storeTime cache).cache = cache) ∧
    (FormValue r "sym" ≠ "" →
      (lookupHandler env r now storeTime cache).status ≠ some 401 ∧
      (lookupHandler env r now storeTime cache).reads = [ToUpper env (FormValue r "sym")]) := by
  constructor
  · intro h
    rw [lookupHandler_of_empty env r now storeTime cache h]
    simp [symRequired]
  · intro h
    have h1 : ToUpper env (FormValue r "sym") ≠ "" :=
      fun e => h ((ToUpper_eq_empty_iff env _).1 e)
    unfold lookupHandler
    simp only [h1, if_false]
    split
    · split
      · simp [serveCached]
      · unfold requestNewQuote panicResult
        simp only
        split
        · split <;> try simp
          split <;> try simp
          split <;> simp
        · simp
    · unfold requestNewQuote panicResult
      simp only
      split
      · split <;> try simp
        split <;> try simp
        split <;> simp
      · simp

/-- C3 (amended), at a request without `sym` and at a request for `sbux`. -/
theorem C3_sym_required_witness :
    ((lookupHandler sampleEnv bareRequest 0 0 emptyCache).status = some 401 ∧
      (lookupHandler sampleEnv bareRequest 0 0 emptyCache).body = "sym required\n" ∧
      (lookupHandler sampleEnv bareRequest 0 0 emptyCache).fetches = [] ∧
      (lookupHandler sampleEnv bareRequest 0 0 emptyCache).panicked = false ∧
      (lookupHandler sampleEnv bareRequest 0 0 emptyCache).cache = emptyCache) ∧
    ((lookupHandler sampleEnv (lookupRequest "sbux") 0 0 emptyCache).status ≠ some 401 ∧
      (lookupHandler sampleEnv (lookupRequest "sbux") 0 0 emptyCache).reads
        = [ToUpper sampleEnv (FormValue (lookupRequest "sbux") "sym")]) :=
  ⟨(C3_sym_required sampleEnv bareRequest 0 0 emptyCache).1 (by decide),
   (C3_sym_required sampleEnv (lookupRequest "sbux") 0 0 emptyCache).2 (by decide)⟩

/-- C4: for a non-empty symbol the handler answers from the cache, without an
upstream fetch, exactly when the map has an entry for the upper-cased symbol whose
int64 age `time.Since(lastMod)` is below one minute; in every other case it runs the
fetch path; and the truncating test `elapsed / time.Minute < 1` agrees with
`elapsed < time.Minute` on every int64 duration, negative ones included. -/
theorem C4_cache_hit_iff_fresh (env : Env) (r : Request) (now storeTime : Time) (cache : Cache)
    (hS : FormValue r "sym" ≠ "") :
    (((lookupHandler env r now storeTime cache).log = ["(Returning cached quote)\n"] ∧
        (lookupHandler env r now storeTime cache).fetches = []) ↔
      ∃ cq, cache (ToUpper env (FormValue r "sym")) = some cq ∧
        timeSince now cq.lastMod < Minute) ∧
    (∀ cq, cache (ToUpper env (FormValue r "sym")) = some cq →
      timeSince now cq.lastMod < Minute →
      lookupHandler env r now storeTime cache
        = serveCached (ToUpper env (FormValue r "sym")) cq cache) ∧
    ((¬ ∃ cq, cache (ToUpper env (FormValue r "sym")) = some cq ∧
        timeSince now cq.lastMod < Minute) →
      lookupHandler env r now storeTime cache
        = requestNewQuote env (ToUpper env (FormValue r "sym")) storeTime cache ∧
      (lookupHandler env r now storeTime cache).log = ["*** Requesting new quote ***\n"]) ∧
    (∀ d : Int, minDuration ≤ d → d ≤ maxDuration →
      (durationDiv d Minute < 1 ↔ d < Minute)) := by
  have hit : ∀ cq, cache (ToUpper env (FormValue r "sym")) = some cq →
      timeSince now cq.lastMod < Minute →
      lookupHandler env r now storeTime cache
        = serveCached (ToUpper env (FormValue r "sym")) cq cache := by
    intro cq hc hf
    exact lookupHandler_of_fresh env r now storeTime cache cq hS hc
      ((timeSub_lt_Minute_iff now cq.lastMod).1 hf)
  have miss : (¬ ∃ cq, cache (ToUpper env (FormValue r "sym")) = some cq ∧
        timeSince now cq.lastMod < Minute) →
      lookupHandler env r now storeTime cache
        = requestNewQuote env (ToUpper env (FormValue r "sym")) storeTime cache := by
    intro hn
    apply lookupHandler_of_not_fresh env r now storeTime cache hS
    intro cq hc hf
    exact hn ⟨cq, hc, (timeSub_lt_Minute_iff now cq.lastMod).2 hf⟩
  refine ⟨⟨?_, ?_⟩, hit, ?_, fun d _ _ => durationDiv_lt_one_iff d⟩
  · rintro ⟨hlog, _⟩
    by_contra hn
    rw [miss hn, requestNewQuote_log] at hlog
    exact absurd hlog (by decide)
  · rintro ⟨cq, hc, hf⟩
    rw [hit cq hc hf]
    exact ⟨rfl, rfl⟩
  · intro hn
    refine ⟨miss hn, ?_⟩
    rw [miss hn, requestNewQuote_log]

/-- C4 at a lookup for `sbux` one second after SBUX was stored. -/
theorem C4_cache_hit_iff_fresh_witness :
    lookupHandler sampleEnv (lookupRequest "sbux") 1000000000 1000000001
        (mapSet emptyCache "SBUX" { lastMod := 0, jsonQuote := sbuxJSON })
      = serveCached "SBUX" { lastMod := 0, jsonQuote := sbuxJSON }
          (mapSet emptyCache "SBUX" { lastMod := 0, jsonQuote := sbuxJSON }) :=
  (C4_cache_hit_iff_fresh sampleEnv (lookupRequest "sbux") 1000000000 1000000001
    (mapSet emptyCache "SBUX" { lastMod := 0, jsonQuote := sbuxJSON }) (by decide)).2.1
    { lastMod := 0, jsonQuote := sbuxJSON } rfl (by decide)

/-- C7: for a non-empty symbol without a fresh entry, a failure of the upstream step
(request construction, transport, body read or JSON decoding) makes the handler
panic before anything is written, and the cache map afterwards is the map before. -/
theorem C7_upstream_failure_keeps_cache (env : Env) (r : Request) (now storeTime : Time)
    (cache : Cache) (hS : FormValue r "sym" ≠ "")
    (hstale : ∀ cq, cache (ToUpper env (FormValue r "sym")) = some cq →
      ¬ timeSince now cq.lastMod < Minute)
    (hfail : env.newRequestOk (requestURL (ToUpper env (FormValue r "sym"))) = false ∨
      env.clientDo (requestURL (ToUpper env (FormValue r "sym"))) = HttpResult.doError ∨
      env.clientDo (requestURL (ToUpper env (FormValue r "sym"))) = HttpResult.readError ∨
      ∃ bs, env.clientDo (requestURL (ToUpper env (FormValue r "sym"))) = HttpResult.body bs ∧
        env.jsonUnmarshal bs = none) :
    (lookupHandler env r now storeTime cache).panicked = true ∧
    (lookupHandler env r now storeTime cache).status = none ∧
    (lookupHandler env r now storeTime cache).body = "" ∧
    (lookupHandler env r now storeTime cache).served = none ∧
    (lookupHandler env r now storeTime cache).cache = cache := by
  have hmiss := lookupHandler_of_not_fresh env r now storeTime cache hS
    (fun cq hc hf => hstale cq hc ((timeSub_lt_Minute_iff now cq.lastMod).2 hf))
  obtain ⟨fetches, hp⟩ := requestNewQuote_of_failure env (ToUpper env (FormValue r "sym"))
    storeTime cache hfail
  rw [hmiss, hp]
  simp [panicResult]

/-- C7 at a lookup for `sbux` while the provider cannot be reached and an entry for
another symbol is cached. -/
theorem C7_upstream_failure_keeps_cache_witness :
    (lookupHandler downEnv (lookupRequest "sbux") 5 6
        (mapSet emptyCache "MSFT" { lastMod := 0, jsonQuote := zeroJSON })).panicked = true ∧
    (lookupHandler downEnv (lookupRequest "sbux") 5 6
        (mapSet emptyCache "MSFT" { lastMod := 0, jsonQuote := zeroJSON })).status = none ∧
    (lookupHandler downEnv (lookupRequest "sbux") 5 6
        (mapSet emptyCache "MSFT" { lastMod := 0, jsonQuote := zeroJSON })).body = "" ∧
    (lookupHandler downEnv (lookupRequest "sbux") 5 6
        (mapSet emptyCache "MSFT" { lastMod := 0, jsonQuote := zeroJSON })).served = none ∧
    (lookupHandler downEnv (lookupRequest "sbux") 5 6
        (mapSet emptyCache "MSFT" { lastMod := 0, jsonQuote := zeroJSON })).cache
      = mapSet emptyCache "MSFT" { lastMod := 0, jsonQuote := zeroJSON } :=
  C7_upstream_failure_keeps_cache downEnv (lookupRequest "sbux") 5 6
    (mapSet emptyCache "MSFT" { lastMod := 0, jsonQuote := zeroJSON }) (by decide)
    (fun cq hc => by
      have hnone : mapSet emptyCache "MSFT" { lastMod := 0, jsonQuote := zeroJSON }
          (ToUpper downEnv (FormValue (lookupRequest "sbux") "sym")) = none := by decide
      rw [hnone] at hc
      cases hc)
    (Or.inr (Or.inl rfl))

/-- C8: the served record is built from the provider record by a total mapping that
copies the symbol into both `Name` and `Symbol` and every other field unchanged, and
this is the record the handler encodes whenever the upstream step yields a record. -/
theorem C8_buildQuote_copies_fields :
    (∀ mq : MktsQuote,
      (buildQuote mq).Name = mq.Symbol ∧ (buildQuote mq).Symbol = mq.Symbol ∧
      (buildQuote mq).Exchange = mq.Exchange ∧ (buildQuote mq).Date = mq.Date ∧
      (buildQuote mq).Open = mq.Open ∧ (buildQuote mq).High = mq.High ∧
      (buildQuote mq).Low = mq.Low ∧ (buildQuote mq).Close = mq.Close ∧
      (buildQuote mq).Volume = mq.Volume) ∧
    (∀ (env : Env) (sym : String) (storeTime : Time) (cache : Cache) (q : Quote),
      (requestNewQuote env sym storeTime cache).served = some q →
      ∃ bs mq, env.clientDo (requestURL sym) = HttpResult.body bs ∧
        env.jsonUnmarshal bs = some mq ∧ q = buildQuote mq) := by
  refine ⟨fun mq => ⟨rfl, rfl, rfl, rfl, rfl, rfl, rfl, rfl, rfl⟩, ?_⟩
  intro env sym storeTime cache q
  unfold requestNewQuote
  simp only
  split
  · split
    · simp [panicResult]
    · simp [panicResult]
    · rename_i bs hbs
      split
      · simp [panicResult]
      · rename_i mq hmq
        split
        · simp [panicResult]
        · intro h
          simp only [Option.some.injEq] at h
          exact ⟨bs, mq, hbs, hmq, h.symm⟩
  · simp [panicResult]

/-- C9: two requests whose symbols have the same upper-casing are handled alike: the
same cache key is read, the same URL is fetched, the same response is written and the
same cache map results. -/
theorem C9_case_insensitive (env : Env) (r r' : Request) (now storeTime : Time) (cache : Cache)
    (h : ToUpper env (FormValue r "sym") = ToUpper env (FormValue r' "sym")) :
    lookupHandler env r now storeTime cache = lookupHandler env r' now storeTime cache ∧
    (lookupHandler env r now storeTime cache).reads
      = (lookupHandler env r' now storeTime cache).reads ∧
    (lookupHandler env r now storeTime cache).fetches
      = (lookupHandler env r' now storeTime cache).fetches ∧
    (lookupHandler env r now storeTime cache).status
      = (lookupHandler env r' now storeTime cache).status ∧
    (lookupHandler env r now storeTime cache).body
      = (lookupHandler env r' now storeTime cache).body ∧
    (lookupHandler env r now storeTime cache).cache
      = (lookupHandler env r' now storeTime cache).cache := by
  have e : lookupHandler env r now storeTime cache = lookupHandler env r' now storeTime cache := by
    simp only [lookupHandler, h]
  exact ⟨e, by rw [e], by rw [e], by rw [e], by rw [e], by rw [e]⟩

/-- C9 at the requests for `sbux` and `SBUX`, both of which fetch and store SBUX. -/
theorem C9_case_insensitive_witness :
    lookupHandler sampleEnv (lookupRequest "sbux") 7 8 emptyCache
      = lookupHandler sampleEnv (lookupRequest "SBUX") 7 8 emptyCache ∧
    (lookupHandler sampleEnv (lookupRequest "sbux") 7 8 emptyCache).reads = ["SBUX"] ∧
    (lookupHandler sampleEnv (lookupRequest "sbux") 7 8 emptyCache).fetches
      = [requestURL "SBUX"] :=
  ⟨(C9_case_insensitive sampleEnv (lookupRequest "sbux") (lookupRequest "SBUX") 7 8 emptyCache
      (by decide)).1, by decide, by decide⟩

/-- C2 as stated fails: the provider answers the unknown symbol `zzzz` with an object
that decodes to the zero record; the body written is the encoding of a quote whose
name and symbol are empty, not `ZZZZ`. -/
theorem C2_served_symbol_is_providers :
    FormValue (lookupRequest "zzzz") "sym" = "zzzz" ∧
    ToUpper sampleEnv "zzzz" = "ZZZZ" ∧
    emptyCache "ZZZZ" = none ∧
    sampleEnv.clientDo (requestURL "ZZZZ") = HttpResult.body errorBody ∧
    sampleEnv.jsonUnmarshal errorBody = some zeroMkts ∧
    (lookupHandler sampleEnv (lookupRequest "zzzz") 0 0 emptyCache).fetches
      = [requestURL "ZZZZ"] ∧
    sampleEnv.jsonMarshalIndent
      { Name := "", Symbol := "", Exchange := "", Date := "", Open := { bits := 0 },
        High := { bits := 0 }, Low := { bits := 0 }, Close := { bits := 0 },
        Volume := { bits := 0 } } = some zeroJSON ∧
    (lookupHandler sampleEnv (lookupRequest "zzzz") 0 0 emptyCache).status = some 200 ∧
    (lookupHandler sampleEnv (lookupRequest "zzzz") 0 0 emptyCache).body = zeroJSON ∧
    (lookupHandler sampleEnv (lookupRequest "zzzz") 0 0 emptyCache).served
      = some (buildQuote zeroMkts) ∧
    (buildQuote zeroMkts).Name = "" ∧
    (buildQuote zeroMkts).Symbol = "" ∧
    (buildQuote zeroMkts).Symbol ≠ ToUpper sampleEnv "zzzz" := by
  refine ⟨rfl, by decide, rfl, by decide, rfl, by decide, rfl, by decide, by decide,
    by decide, rfl, rfl, by decide⟩

/-- C2 (amended): for a non-empty symbol without a cache entry and an upstream answer
that decodes, the handler hands exactly one URL to the HTTP client; and when
`json.MarshalIndent` yields an encoding without a percent sign, the response has
status 200 and its body is exactly that encoding of the quote whose `Name` and
`Symbol` are both the symbol of the decoded provider record (the upper-cased request
symbol when the provider record carries it) and whose other fields are copied. -/
theorem C2_first_lookup (env : Env) (r : Request) (now storeTime : Time) (cache : Cache)
    (bs : List UInt8) (mq : MktsQuote) (hS : FormValue r "sym" ≠ "")
    (hnone : cache (ToUpper env (FormValue r "sym")) = none)
    (hreq : env.newRequestOk (requestURL (ToUpper env (FormValue r "sym"))) = true)
    (hdo : env.clientDo (requestURL (ToUpper env (FormValue r "sym"))) = HttpResult.body bs)
    (hdec : env.jsonUnmarshal bs = some mq) :
    (lookupHandler env r now storeTime cache).fetches
      = [requestURL (ToUpper env (FormValue r "sym"))] ∧
    (∀ js, env.jsonMarshalIndent
        { Name := mq.Symbol, Symbol := mq.Symbol, Exchange := mq.Exchange, Date := mq.Date,
          Open := mq.Open, High := mq.High, Low := mq.Low, Close := mq.Close,
          Volume := mq.Volume } = some js →
      '%' ∉ js.data →
      (lookupHandler env r now storeTime cache).status = some 200 ∧
      (lookupHandler env r now storeTime cache).panicked = false ∧
      (lookupHandler env r now storeTime cache).body = js) ∧
    (mq.Symbol = ToUpper env (FormValue r "sym") →
      ∀ js, env.jsonMarshalIndent
          { Name := ToUpper env (FormValue r "sym"), Symbol := ToUpper env (FormValue r "sym"),
            Exchange := mq.Exchange, Date := mq.Date, Open := mq.Open, High := mq.High,
            Low := mq.Low, Close := mq.Close, Volume := mq.Volume } = some js →
        '%' ∉ js.data →
        (lookupHandler env r now storeTime cache).status = some 200 ∧
        (lookupHandler env r now storeTime cache).panicked = false ∧
        (lookupHandler env r now storeTime cache).body = js) := by
  have hmiss := lookupHandler_of_not_fresh env r now storeTime cache hS
    (fun cq hc => by rw [hnone] at hc; cases hc)
  have hq := requestNewQuote_of_decoded env (ToUpper env (FormValue r "sym")) storeTime cache
    bs mq hreq hdo hdec
  have hbody : ∀ js, env.jsonMarshalIndent (buildQuote mq) = some js → '%' ∉ js.data →
      (lookupHandler env r now storeTime cache).status = some 200 ∧
      (lookupHandler env r now storeTime cache).panicked = false ∧
      (lookupHandler env r now storeTime cache).body = js := by
    intro js hjs hpc
    rw [hmiss, hq, hjs]
    exact ⟨rfl, rfl, Fprintf_of_no_percent js hpc⟩
  refine ⟨?_, ?_, ?_⟩
  · rw [hmiss, hq]
    cases env.jsonMarshalIndent (buildQuote mq) <;> rfl
  · intro js hjs hpc
    exact hbody js hjs hpc
  · intro hecho js hjs hpc
    rw [← hecho] at hjs
    exact hbody js hjs hpc

/-- C2 (amended) at the first lookup for `sbux`: one fetch, and the body is the
encoding of the quote named SBUX. -/
theorem C2_first_lookup_witness :
    (lookupHandler sampleEnv (lookupRequest "sbux") 0 0 emptyCache).fetches
      = [requestURL (ToUpper sampleEnv (FormValue (lookupRequest "sbux") "sym"))] ∧
    (lookupHandler sampleEnv (lookupRequest "sbux") 0 0 emptyCache).status = some 200 ∧
    (lookupHandler sampleEnv (lookupRequest "sbux") 0 0 emptyCache).panicked = false ∧
    (lookupHandler sampleEnv (lookupRequest "sbux") 0 0 emptyCache).body = sbuxJSON :=
  ⟨(C2_first_lookup sampleEnv (lookupRequest "sbux") 0 0 emptyCache sbuxBody sbuxMkts
      (by decide) rfl rfl (by decide) rfl).1,
   (C2_first_lookup sampleEnv (lookupRequest "sbux") 0 0 emptyCache sbuxBody sbuxMkts
      (by decide) rfl rfl (by decide) rfl).2.2 (by decide) sbuxJSON rfl (by decide)⟩

/-- When the provider record carries the upper-cased request symbol, a second lookup
within a minute of the first is answered from the cache with the same body and
without a fetch. -/
theorem second_lookup_of_echoed_symbol (env env2 : Env) (r : Request)
    (t1 s1 t2 s2 : Int) (cache : Cache) (bs : List UInt8) (mq : MktsQuote) (js : String)
    (hS : FormValue r "sym" ≠ "")
    (hstale : ∀ cq, cache (ToUpper env (FormValue r "sym")) = some cq →
      ¬ timeSince t1 cq.lastMod < Minute)
    (hreq : env.newRequestOk (requestURL (ToUpper env (FormValue r "sym"))) = true)
    (hdo : env.clientDo (requestURL (ToUpper env (FormValue r "sym"))) = HttpResult.body bs)
    (hdec : env.jsonUnmarshal bs = some mq)
    (hjs : env.jsonMarshalIndent (buildQuote mq) = some js)
    (hecho : mq.Symbol = ToUpper env (FormValue r "sym"))
    (hup : ToUpper env2 (FormValue r "sym") = ToUpper env (FormValue r "sym"))
    (h1 : t1 ≤ s1) (h2 : t2 < t1 + Minute) :
    (lookupHandler env2 r t2 s2 (lookupHandler env r t1 s1 cache).cache).fetches = [] ∧
    (lookupHandler env2 r t2 s2 (lookupHandler env r t1 s1 cache).cache).body
      = (lookupHandler env r t1 s1 cache).body := by
  have hmiss := lookupHandler_of_not_fresh env r t1 s1 cache hS
    (fun cq hc hf => hstale cq hc ((timeSub_lt_Minute_iff t1 cq.lastMod).2 hf))
  have hq := requestNewQuote_of_decoded env (ToUpper env (FormValue r "sym")) s1 cache
    bs mq hreq hdo hdec
  rw [hjs] at hq
  rw [hmiss, hq]
  simp only
  have hc : mapSet cache (buildQuote mq).Symbol { lastMod := s1, jsonQuote := js }
      (ToUpper env2 (FormValue r "sym")) = some { lastMod := s1, jsonQuote := js } := by
    simp [mapSet, buildQuote, hecho, hup]
  have hf : t2 - s1 < Minute := by
    unfold Minute at h2 ⊢
    omega
  rw [lookupHandler_of_fresh env2 r t2 s2 _ { lastMod := s1, jsonQuote := js } hS hc hf]
  exact ⟨rfl, rfl⟩

/-- A lookup changes no cache key other than the symbol of the decoded provider record. -/
theorem lookupHandler_cache_other_keys (env : Env) (r : Request) (now storeTime : Time)
    (cache : Cache) (k : String)
    (hk : ∀ bs mq, env.clientDo (requestURL (ToUpper env (FormValue r "sym")))
        = HttpResult.body bs → env.jsonUnmarshal bs = some mq → mq.Symbol ≠ k) :
    (lookupHandler env r now storeTime cache).cache k = cache k := by
  have hnew : (requestNewQuote env (ToUpper env (FormValue r "sym")) storeTime cache).cache k
      = cache k := by
    unfold requestNewQuote
    simp only
    split
    · split
      · rfl
      · rfl
      · rename_i bs hbs
        split
        · rfl
        · rename_i mq hmq
          split
          · rfl
          · have hne : k ≠ mq.Symbol := fun e => hk bs mq hbs hmq e.symm
            simp [mapSet, buildQuote, hne]
    · rfl
  unfold lookupHandler
  simp only
  split
  · rfl
  · split
    · split
      · rfl
      · exact hnew
    · exact hnew

/-- The response to a lookup is the same for two cache maps that agree on the
upper-cased request symbol. -/
theorem lookupHandler_response_of_agree (env : Env) (r : Request) (now storeTime : Time)
    (c1 c2 : Cache)
    (h : c1 (ToUpper env (FormValue r "sym")) = c2 (ToUpper env (FormValue r "sym"))) :
    (lookupHandler env r now storeTime c1).status = (lookupHandler env r now storeTime c2).status ∧
    (lookupHandler env r now storeTime c1).body = (lookupHandler env r now storeTime c2).body ∧
    (lookupHandler env r now storeTime c1).fetches
      = (lookupHandler env r now storeTime c2).fetches ∧
    (lookupHandler env r now storeTime c1).panicked
      = (lookupHandler env r now storeTime c2).panicked := by
  have hnew : ∀ sym,
      (requestNewQuote env sym storeTime c1).status = (requestNewQuote env sym storeTime c2).status ∧
      (requestNewQuote env sym storeTime c1).body = (requestNewQuote env sym storeTime c2).body ∧
      (requestNewQuote env sym storeTime c1).fetches
        = (requestNewQuote env sym storeTime c2).fetches ∧
      (requestNewQuote env sym storeTime c1).panicked
        = (requestNewQuote env sym storeTime c2).panicked := by
    intro sym
    unfold requestNewQuote
    simp only
    split
    · split
      · exact ⟨rfl, rfl, rfl, rfl⟩
      · exact ⟨rfl, rfl, rfl, rfl⟩
      · split
        · exact ⟨rfl, rfl, rfl, rfl⟩
        · split <;> exact ⟨rfl, rfl, rfl, rfl⟩
    · exact ⟨rfl, rfl, rfl, rfl⟩
  unfold lookupHandler
  simp only [h]
  split
  · exact ⟨rfl, rfl, rfl, rfl⟩
  · split
    · split
      · exact ⟨rfl, rfl, rfl, rfl⟩
      · exact hnew _
    · exact hnew _

/-- C1 at its failing input: the provider answers `zzzz` with an object that decodes to
the zero record; the first lookup stores its payload under the empty key, the entry
for `ZZZZ` stays absent, and a second lookup two nanoseconds later fetches again. -/
theorem C1_second_lookup_fetches_again :
    FormValue (lookupRequest "zzzz") "sym" = "zzzz" ∧
    emptyCache (ToUpper sampleEnv "zzzz") = none ∧
    sampleEnv.clientDo (requestURL "ZZZZ") = HttpResult.body errorBody ∧
    sampleEnv.jsonUnmarshal errorBody = some zeroMkts ∧
    (lookupHandler sampleEnv (lookupRequest "zzzz") 0 1 emptyCache).fetches
      = [requestURL "ZZZZ"] ∧
    (lookupHandler sampleEnv (lookupRequest "zzzz") 0 1 emptyCache).status = some 200 ∧
    (lookupHandler sampleEnv (lookupRequest "zzzz") 0 1 emptyCache).cache "ZZZZ" = none ∧
    (lookupHandler sampleEnv (lookupRequest "zzzz") 0 1 emptyCache).cache ""
      = some { lastMod := 1, jsonQuote := zeroJSON } ∧
    (lookupHandler sampleEnv (lookupRequest "zzzz") 2 3
      (lookupHandler sampleEnv (lookupRequest "zzzz") 0 1 emptyCache).cache).fetches
      = [requestURL "ZZZZ"] := by
  refine ⟨rfl, by decide, by decide, rfl, by decide, by decide, by decide, by decide, by decide⟩

/-- C5 at its failing input: with an entry cached under `META`, a lookup for `fb` whose
provider record carries the symbol META replaces that entry, although `FB` and `META`
are different keys. -/
theorem C5_lookup_replaces_other_key :
    ToUpper aliasEnv "fb" = "FB" ∧
    ToUpper aliasEnv "meta" = "META" ∧
    mapSet emptyCache "META" { lastMod := 0, jsonQuote := "old" } "META"
      = some { lastMod := 0, jsonQuote := "old" } ∧
    (lookupHandler aliasEnv (lookupRequest "fb") 5 6
      (mapSet emptyCache "META" { lastMod := 0, jsonQuote := "old" })).reads = ["FB"] ∧
    (lookupHandler aliasEnv (lookupRequest "fb") 5 6
      (mapSet emptyCache "META" { lastMod := 0, jsonQuote := "old" })).cache "FB" = none ∧
    (lookupHandler aliasEnv (lookupRequest "fb") 5 6
      (mapSet emptyCache "META" { lastMod := 0, jsonQuote := "old" })).cache "META"
      ≠ some { lastMod := 0, jsonQuote := "old" } ∧
    ((lookupHandler aliasEnv (lookupRequest "fb") 5 6
      (mapSet emptyCache "META" { lastMod := 0, jsonQuote := "old" })).cache "META").map
        (fun cq => cq.lastMod) = some 6 := by
  refine ⟨by decide, by decide, by decide, by decide, by decide, by decide, by decide⟩

set_option maxRecDepth 20000 in
/-- C6 at its failing input: a fresh entry for SBUX whose payload holds `%%` in the
exchange field is answered from the cache without a fetch, but the body has a single
`%` there, because the payload is the format string of `fmt.Fprintf`. -/
theorem C6_cached_payload_is_a_format :
    timeSince 1 0 < Minute ∧
    (lookupHandler sampleEnv (lookupRequest "sbux") 1 2
      (mapSet emptyCache "SBUX" { lastMod := 0, jsonQuote := percentJSON })).log
      = ["(Returning cached quote)\n"] ∧
    (lookupHandler sampleEnv (lookupRequest "sbux") 1 2
      (mapSet emptyCache "SBUX" { lastMod := 0, jsonQuote := percentJSON })).fetches = [] ∧
    (lookupHandler sampleEnv (lookupRequest "sbux") 1 2
      (mapSet emptyCache "SBUX" { lastMod := 0, jsonQuote := percentJSON })).body
      = percentWritten ∧
    (lookupHandler sampleEnv (lookupRequest "sbux") 1 2
      (mapSet emptyCache "SBUX" { lastMod := 0, jsonQuote := percentJSON })).body
      ≠ percentJSON := by
  have hbody : (lookupHandler sampleEnv (lookupRequest "sbux") 1 2
      (mapSet emptyCache "SBUX" { lastMod := 0, jsonQuote := percentJSON })).body
      = percentWritten := by rfl
  refine ⟨by decide, by decide, by decide, hbody, ?_⟩
  rw [hbody]
  intro h
  exact absurd (congrArg String.length h) (by decide)

/-- Once `fNoMoreSwitches` is set, the loop only appends to `parms`. -/
theorem foldl_parseArgsStep_of_noMore (post : List String) (st : ArgState)
    (h : st.fNoMoreSwitches = true) :
    post.foldl parseArgsStep st = { st with parms := st.parms ++ post } := by
  induction post generalizing st with
  | nil => simp
  | cons a post ih =>
    have hstep : parseArgsStep st a = { st with parms := st.parms ++ [a] } := by
      simp [parseArgsStep, h]
    rw [List.foldl_cons, hstep]
    rw [ih { st with parms := st.parms ++ [a] } h]
    simp

/-- An argument other than `--` leaves `fNoMoreSwitches` unset. -/
theorem parseArgsStep_noMore_false (st : ArgState) (arg : String)
    (h : st.fNoMoreSwitches = false) (ha : arg ≠ "--") :
    (parseArgsStep st arg).fNoMoreSwitches = false := by
  unfold parseArgsStep
  simp only [h, ha, if_false, Bool.false_eq_true]
  split_ifs <;> simp [h]

/-- Arguments without `--` leave `fNoMoreSwitches` unset. -/
theorem foldl_parseArgsStep_noMore_false (pre : List String) (st : ArgState)
    (h : st.fNoMoreSwitches = false) (hpre : "--" ∉ pre) :
    (pre.foldl parseArgsStep st).fNoMoreSwitches = false := by
  induction pre generalizing st with
  | nil => simpa using h
  | cons a pre ih =>
    have ha : a ≠ "--" := fun e => hpre (by simp [e])
    have hp : "--" ∉ pre := fun e => hpre (by simp [e])
    rw [List.foldl_cons]
    exact ih _ (parseArgsStep_noMore_false st a h ha) hp

/-- C10: every argument after the first `--` is a standalone parameter: if `pre` has
no `--`, then `parseArgs (pre ++ ["--"] ++ post)` has the switches of `parseArgs pre`
and the parameters of `parseArgs pre` followed by `post`, unchanged and in order. -/
theorem C10_args_after_double_dash (pre post : List String) (h : "--" ∉ pre) :
    (parseArgs (pre ++ ["--"] ++ post)).1 = (parseArgs pre).1 ∧
    (parseArgs (pre ++ ["--"] ++ post)).2 = (parseArgs pre).2 ++ post := by
  have hpre := foldl_parseArgsStep_noMore_false pre ArgState.init rfl h
  have hdash : parseArgsStep (pre.foldl parseArgsStep ArgState.init) "--"
      = { pre.foldl parseArgsStep ArgState.init with fNoMoreSwitches := true } := by
    simp [parseArgsStep, hpre]
  unfold parseArgs
  simp only [List.foldl_append, List.foldl_cons, List.foldl_nil]
  rw [hdash, foldl_parseArgsStep_of_noMore post _ rfl]
  exact ⟨rfl, rfl⟩

/-- C10 at `-i x.db a -- -v -- --x`. -/
theorem C10_args_after_double_dash_witness :
    (parseArgs (["-i", "x.db", "a"] ++ ["--"] ++ ["-v", "--", "--x"])).1
      = (parseArgs ["-i", "x.db", "a"]).1 ∧
    (parseArgs (["-i", "x.db", "a"] ++ ["--"] ++ ["-v", "--", "--x"])).2
      = (parseArgs ["-i", "x.db", "a"]).2 ++ ["-v", "--", "--x"] :=
  C10_args_after_double_dash ["-i", "x.db", "a"] ["-v", "--", "--x"] (by decide)

end T3
